import Mathlib

/-! Verification of the scope-aware authorization core of python-odoo-mcp:
scope parsing and enforcement (src/auth/scope_validator.py), the scope-keyed
TTL connection pool (src/connection/pool.py), the connection manager
(src/connection/manager.py) and the gateway call path (src/odoo/client.py).
Strings are modelled as lists of characters, wall-clock instants as natural
numbers, and the external collaborators (SHA-256 digest, XML-RPC
authentication and remote calls) as explicit function parameters. -/

namespace OdooMcp

/-- A character string, modelled as a list of characters. -/
abbrev Str := List Char

/-- Python str.strip(): drop whitespace from both ends. -/
def trim (s : Str) : Str :=
  ((s.dropWhile Char.isWhitespace).reverse.dropWhile Char.isWhitespace).reverse

/-- Python str.split(sep) for a one-character separator: the list of
chunks between occurrences of the separator, keeping empty chunks. -/
def splitOnChar (sep : Char) : Str → List Str
  | [] => [[]]
  | c :: cs =>
    if c = sep then [] :: splitOnChar sep cs
    else
      match splitOnChar sep cs with
      | [] => [[c]]
      | chunk :: rest => (c :: chunk) :: rest

/-- The text before the first colon of a segment (parts[0] of
pair.split(":", 1)). -/
def beforeColon (s : Str) : Str := s.takeWhile (fun c => c ≠ ':')

/-- The text after the first colon of a segment (parts[1] of
pair.split(":", 1); empty when there is no colon). -/
def afterColon (s : Str) : Str := (s.dropWhile (fun c => c ≠ ':')).drop 1

/-- One grant entry of the parsed scope: which of the three valid
permission letters R, W, D survived upper-casing and filtering.
The all-false value is the explicit empty-permission denial entry. -/
structure PermSet where
  r : Bool
  w : Bool
  d : Bool
deriving DecidableEq

/-- set(perms_str.upper()) intersected with the valid alphabet: which of
R, W, D occurs in the permission part, case-insensitively. -/
def permsOfString (s : Str) : PermSet :=
  { r := s.any (fun c => c.toUpper == 'R')
    w := s.any (fun c => c.toUpper == 'W')
    d := s.any (fun c => c.toUpper == 'D') }

/-- The allowed_models dict of ScopeValidator: an association list with
unique keys, updated in place like a Python dict. -/
abbrev ScopeMap := List (Str × PermSet)

/-- Dict lookup on the allowed_models map. -/
def lookupPS : ScopeMap → Str → Option PermSet
  | [], _ => none
  | (k, v) :: rest, m => if k = m then some v else lookupPS rest m

/-- Dict assignment on the allowed_models map: replace the value of an
existing key in place, otherwise append a new entry. -/
def insertPS : ScopeMap → Str → PermSet → ScopeMap
  | [], k, v => [(k, v)]
  | (k', v') :: rest, k, v =>
    if k' = k then (k', v) :: rest else (k', v') :: insertPS rest k v

/-- The loop body of ScopeValidator._parse_scope for one comma-separated
segment: skip a blank segment, a segment with no colon, and a segment with
an empty entity-type token; otherwise record the (model, permissions)
entry. -/
def parsePair (m : ScopeMap) (rawPair : Str) : ScopeMap :=
  let pair := trim rawPair
  if pair = [] then m
  else if pair.contains ':' then
    let model := trim (beforeColon pair)
    let permsStr := trim (afterColon pair)
    if model = [] then m
    else insertPS m model (permsOfString permsStr)
  else m

/-- ScopeValidator._parse_scope: reject an empty or all-whitespace scope
string, fold the segments into the allowed_models map, and reject the
result when no grant entry remains. Errors carry the
ScopeValidationError message. -/
def parse_scope (scopeString : Str) : Except Str ScopeMap :=
  if trim scopeString = [] then .error "Scope string cannot be empty".data
  else
    let m := (splitOnChar ',' scopeString).foldl parsePair []
    if m = [] then
      .error "Scope string resulted in no valid model permissions".data
    else .ok m

/-- ScopeValidator.OPERATION_PERMISSIONS: the fixed operation-name to
required-permission-letter table, in source order. -/
def OPERATION_PERMISSIONS : List (Str × Char) :=
  [("search".data, 'R'), ("read".data, 'R'), ("search_read".data, 'R'),
   ("search_count".data, 'R'), ("fields_get".data, 'R'),
   ("default_get".data, 'R'),
   ("write".data, 'W'), ("create".data, 'W'),
   ("unlink".data, 'D')]

/-- Dict .get on the operation-permission table. -/
def lookupOp : List (Str × Char) → Str → Option Char
  | [], _ => none
  | (k, v) :: rest, op => if k = op then some v else lookupOp rest op

/-- Membership of a required-permission letter in a grant entry
(required_perm in self.allowed_models[model]). -/
def PermSet.hasLetter (p : PermSet) (c : Char) : Bool :=
  if c = 'R' then p.r else if c = 'W' then p.w else if c = 'D' then p.d
  else false

/-- ScopeValidator.can_call: map the operation through the table (unknown
operation denied), then decide by the exact-model entry when present,
else by the wildcard entry when present, else deny. -/
def can_call (m : ScopeMap) (model operation : Str) : Bool :=
  match lookupOp OPERATION_PERMISSIONS operation with
  | none => false
  | some requiredPerm =>
    match lookupPS m model with
    | some perms => perms.hasLetter requiredPerm
    | none =>
      match lookupPS m "*".data with
      | some perms => perms.hasLetter requiredPerm
      | none => false

/-- The PermissionError message raised by ScopeValidator.enforce_call. -/
def deniedMsg (model operation : Str) : Str :=
  let rp := (lookupOp OPERATION_PERMISSIONS operation).getD '?'
  "Permission denied: No '".data ++ [rp]
    ++ "' permission for operation '".data ++ operation
    ++ "' on model '".data ++ model ++ ['\'']

/-- A constructed ScopeValidator: the raw scope string it was built from
and the allowed_models map _parse_scope produced. -/
structure ScopeValidator where
  scope_string : Str
  allowed_models : ScopeMap
deriving DecidableEq

/-- ScopeValidator.enforce_call: none on success, the PermissionError
message when the call is denied. -/
def enforce_call (v : ScopeValidator) (model operation : Str) : Option Str :=
  if can_call v.allowed_models model operation then none
  else some (deniedMsg model operation)

/-- Stated from the specification's wording of the operation table: the
three operation groups and their required permission letters. -/
def requiredPermSpec (op : Str) : Option Char :=
  if op ∈ ["search".data, "read".data, "search_read".data,
           "search_count".data, "fields_get".data, "default_get".data] then
    some 'R'
  else if op ∈ ["create".data, "write".data] then some 'W'
  else if op = "unlink".data then some 'D'
  else none

/-- Stated from the specification's wording of the enforcement procedure:
map the operation through the fixed table (operations outside it always
denied); an explicit grant entry for the entity type, including an empty
one, alone determines the decision; otherwise the wildcard entry is
consulted if present; otherwise deny. -/
def canCallSpec (m : ScopeMap) (entityType operation : Str) : Bool :=
  match requiredPermSpec operation with
  | none => false
  | some rp =>
    match lookupPS m entityType with
    | some entry => entry.hasLetter rp
    | none =>
      match lookupPS m "*".data with
      | some entry => entry.hasLetter rp
      | none => false

/-- One cached connection: the dict stored by ConnectionPool.set.
π is the opaque type of the XML-RPC models proxy handle. -/
structure Conn (π : Type) where
  uid : Nat
  db : Str
  models_proxy : π
  scope : Str
  created_at : Nat
  expires_at : Nat
deriving DecidableEq

/-- The connections dict of a ConnectionPool, keyed by the derived cache
key. -/
abbrev Pool (π : Type) := List (Str × Conn π)

/-- Dict lookup on the connections map. -/
def lookupConn {π : Type} : Pool π → Str → Option (Conn π)
  | [], _ => none
  | (k, c) :: rest, key => if k = key then some c else lookupConn rest key

/-- Dict deletion on the connections map. -/
def eraseConn {π : Type} : Pool π → Str → Pool π
  | [], _ => []
  | (k, c) :: rest, key =>
    if k = key then eraseConn rest key else (k, c) :: eraseConn rest key

/-- Dict assignment on the connections map: replace in place or append. -/
def insertConn {π : Type} : Pool π → Str → Conn π → Pool π
  | [], key, c => [(key, c)]
  | (k, c') :: rest, key, c =>
    if k = key then (k, c) :: rest else (k, c') :: insertConn rest key c

/-- ConnectionPool._create_key, with the SHA-256 hex digest abstracted as
the function h: h applied to url ++ ":" ++ username ++ ":" ++ h scope. -/
def createKey (h : Str → Str) (odoo_url username scope : Str) : Str :=
  h (odoo_url ++ [':'] ++ username ++ [':'] ++ h scope)

/-- ConnectionPool.get: derive the key; return a present entry unchanged
while now is at most its expiry; delete an expired entry and report
not-found; report not-found on an absent key. Returns the (result, new
pool state) pair. -/
def pool_get {π : Type} (h : Str → Str) (p : Pool π) (now : Nat)
    (odoo_url username scope : Str) : Option (Conn π) × Pool π :=
  let key := createKey h odoo_url username scope
  match lookupConn p key with
  | none => (none, p)
  | some cached =>
    if cached.expires_at < now then (none, eraseConn p key)
    else (some cached, p)

/-- ConnectionPool.set: store the connection dict under the derived key
with created_at = now and expires_at = now + max_age. -/
def pool_set {π : Type} (h : Str → Str) (maxAge : Nat) (p : Pool π)
    (now : Nat) (odoo_url username scope : Str) (uid : Nat) (db : Str)
    (models_proxy : π) : Pool π :=
  insertConn p (createKey h odoo_url username scope)
    { uid := uid, db := db, models_proxy := models_proxy, scope := scope,
      created_at := now, expires_at := now + maxAge }

/-- ConnectionPool.invalidate: delete the entry under the derived key if
present. -/
def pool_invalidate {π : Type} (h : Str → Str) (p : Pool π)
    (odoo_url username scope : Str) : Pool π :=
  eraseConn p (createKey h odoo_url username scope)

/-- ConnectionPool.size: the number of entries. -/
def pool_size {π : Type} (p : Pool π) : Nat := p.length

/-- How many entries are past their expiry at the instant now (the loop
inside ConnectionPool.stats). -/
def expiredCount {π : Type} : Pool π → Nat → Nat
  | [], _ => 0
  | (_, c) :: rest, now =>
    (if c.expires_at < now then 1 else 0) + expiredCount rest now

/-- The record ConnectionPool.stats returns. -/
structure PoolStats where
  total_connections : Nat
  expired_connections : Nat
  active_connections : Nat
  ttl_minutes : Nat
deriving DecidableEq

/-- ConnectionPool.stats: total entries, entries past expiry, their
difference, and the configured TTL. -/
def pool_stats {π : Type} (maxAge : Nat) (p : Pool π) (now : Nat) :
    PoolStats :=
  { total_connections := p.length
    expired_connections := expiredCount p now
    active_connections := p.length - expiredCount p now
    ttl_minutes := maxAge }

/-- The outcome of the xmlrpc authenticate call, as an oracle: a Fault
raised by the server, any other transport exception, or a returned value
(none models Python False/None). -/
inductive AuthOutcome where
  | fault (msg : Str)
  | exc (msg : Str)
  | ok (uid : Option Nat)

/-- Python truthiness of the authenticate result: False/None and 0 are
falsy. -/
def uidFalsy : Option Nat → Bool
  | none => true
  | some u => u == 0

/-- OdooConnectionError, with its message. -/
structure ConnErr where
  msg : Str
deriving DecidableEq

/-- The fixed message of the OdooConnectionError raised on a falsy uid. -/
def authFailedMsg : Str :=
  "Authentication failed: Invalid username/password".data

/-- The message head of the OdooConnectionError built from an xmlrpc
Fault during authentication. -/
def odooAuthErrHead : Str := "Odoo error during authentication: ".data

/-- The message head of the OdooConnectionError built by the generic
except clause of get_connection. -/
def connFailHead : Str := "Failed to connect to Odoo: ".data

/-- The path suffix of the models proxy endpoint. -/
def objectEndpoint : Str := "/xmlrpc/2/object".data

/-- OdooConnectionManager.get_connection: consult the pool first and
return a hit directly; on a miss authenticate through the oracle. A
Fault maps to the authentication-error message; a falsy uid raises
OdooConnectionError inside the try block, which the generic except
clause re-wraps, so its message gains the connect-failure head, as does
any other exception; on a truthy uid build the models proxy, store the
connection in the pool and return the (uid, db, proxy) triple. The
password argument is consumed by the authenticate oracle. -/
def get_connection {π : Type} (h : Str → Str) (maxAge : Nat)
    (mkProxy : Str → π) (auth : AuthOutcome) (p : Pool π) (now : Nat)
    (odoo_url odoo_db username _password scope : Str) :
    Except ConnErr (Nat × Str × π) × Pool π :=
  let looked := pool_get h p now odoo_url username scope
  match looked.1 with
  | some cached => (.ok (cached.uid, cached.db, cached.models_proxy), looked.2)
  | none =>
    match auth with
    | .fault m => (.error ⟨odooAuthErrHead ++ m⟩, looked.2)
    | .exc m => (.error ⟨connFailHead ++ m⟩, looked.2)
    | .ok uid =>
      if uidFalsy uid then
        (.error ⟨connFailHead ++ authFailedMsg⟩, looked.2)
      else
        let u := uid.getD 0
        let models := mkProxy (odoo_url ++ objectEndpoint)
        (.ok (u, odoo_db, models),
         pool_set h maxAge looked.2 now odoo_url username scope u odoo_db
           models)

/-- The outcome of the models.execute_kw transport call, as an oracle
over the resolved (uid, db, proxy) connection triple: a Fault from the
backend, any other transport or serialization exception, or a result
value of type V. -/
inductive RpcOutcome (V : Type) where
  | fault (msg : Str)
  | exc (msg : Str)
  | ok (val : V)

/-- What OdooClient.execute_kw can raise: the propagated PermissionError
or an OdooClientError, each with its message. -/
inductive ClientErr where
  | permission (msg : Str)
  | client (msg : Str)
deriving DecidableEq

/-- The message head of the OdooClientError built from a backend Fault. -/
def odooErrHead : Str := "Odoo error: ".data

/-- The message head of the OdooClientError built by the generic except
clause around the RPC call. -/
def rpcFailHead : Str := "RPC call failed: ".data

/-- OdooClient.execute_kw: enforce the scope before anything else and
propagate the PermissionError on denial; then resolve a connection
(_get_connection re-raises OdooConnectionError as OdooClientError with
the same message); then run the remote call through the rpc oracle,
mapping a backend Fault and any other exception to OdooClientError
messages. Returns the (result, new pool state) pair. -/
def execute_kw {π V : Type} (h : Str → Str) (maxAge : Nat)
    (mkProxy : Str → π) (auth : AuthOutcome)
    (rpc : Nat × Str × π → RpcOutcome V) (v : ScopeValidator) (p : Pool π)
    (now : Nat) (odoo_url odoo_db username password model method : Str) :
    Except ClientErr V × Pool π :=
  match enforce_call v model method with
  | some m => (.error (.permission m), p)
  | none =>
    let resolved := get_connection h maxAge mkProxy auth p now odoo_url
      odoo_db username password v.scope_string
    match resolved.1 with
    | .error e => (.error (.client e.msg), resolved.2)
    | .ok conn =>
      match rpc conn with
      | .fault m => (.error (.client (odooErrHead ++ m)), resolved.2)
      | .exc m => (.error (.client (rpcFailHead ++ m)), resolved.2)
      | .ok val => (.ok val, resolved.2)

/-- Whether an Except value is an error. -/
def isErrE {ε α : Type} : Except ε α → Bool
  | .error _ => true
  | .ok _ => false

instance {ε α : Type} [DecidableEq ε] [DecidableEq α] :
    DecidableEq (Except ε α) := fun x y =>
  match x, y with
  | .error a, .error b => decidable_of_iff (a = b) (by simp)
  | .error _, .ok _ => isFalse (fun hc => Except.noConfusion hc)
  | .ok _, .error _ => isFalse (fun hc => Except.noConfusion hc)
  | .ok a, .ok b => decidable_of_iff (a = b) (by simp)

/-- Whether one comma-separated segment of a scope string contributes a
grant entry: nonempty after trimming, contains a colon, and its
entity-type token is nonempty after trimming. -/
def validSegmentB (seg : Str) : Bool :=
  let pair := trim seg
  if pair = [] then false
  else if pair.contains ':' then
    if trim (beforeColon pair) = [] then false else true
  else false

lemma lookupPS_insertPS_self (m : ScopeMap) (k : Str) (v : PermSet) :
    lookupPS (insertPS m k v) k = some v := by
  induction m with
  | nil => simp [insertPS, lookupPS]
  | cons e rest ih =>
    obtain ⟨k', v'⟩ := e
    by_cases hk : k' = k
    · simp [insertPS, hk, lookupPS]
    · simp [insertPS, hk, lookupPS, ih]

lemma lookupOp_eq_requiredPermSpec (op : Str) :
    lookupOp OPERATION_PERMISSIONS op = requiredPermSpec op := by
  by_cases h1 : op = "search".data
  · subst h1; decide
  by_cases h2 : op = "read".data
  · subst h2; decide
  by_cases h3 : op = "search_read".data
  · subst h3; decide
  by_cases h4 : op = "search_count".data
  · subst h4; decide
  by_cases h5 : op = "fields_get".data
  · subst h5; decide
  by_cases h6 : op = "default_get".data
  · subst h6; decide
  by_cases h7 : op = "write".data
  · subst h7; decide
  by_cases h8 : op = "create".data
  · subst h8; decide
  by_cases h9 : op = "unlink".data
  · subst h9; decide
  simp [lookupOp, OPERATION_PERMISSIONS, requiredPermSpec, h1, h2, h3, h4,
    h5, h6, h7, h8, h9, Ne.symm h1, Ne.symm h2, Ne.symm h3, Ne.symm h4,
    Ne.symm h5, Ne.symm h6, Ne.symm h7, Ne.symm h8, Ne.symm h9]

/-- C2: for every policy map, entity type and operation, can_call decides
exactly as the specification's procedure: the fixed operation table
(search, read, search_read, search_count, fields_get, default_get need R;
create, write need W; unlink needs D; anything else is denied), with an
explicit grant entry — empty ones included — alone deciding when present,
the wildcard entry consulted only otherwise, and denial as the default. -/
theorem can_call_matches_spec (m : ScopeMap) (entityType operation : Str) :
    can_call m entityType operation = canCallSpec m entityType operation := by
  unfold can_call canCallSpec
  rw [lookupOp_eq_requiredPermSpec]

/-- C3: cache key derivation is deterministic in the (url, username,
scope) triple, and — under the collision-resistance of the digest,
modelled as injectivity of h — varying the scope string, the url, or the
username alone always changes the key; the scope enters only as the raw
string, so no semantic identification of scopes takes place. -/
theorem createKey_deterministic_and_separating (h : Str → Str)
    (hinj : Function.Injective h) :
    (∀ url user scope,
        createKey h url user scope = createKey h url user scope) ∧
    (∀ url user s₁ s₂, s₁ ≠ s₂ →
        createKey h url user s₁ ≠ createKey h url user s₂) ∧
    (∀ url₁ url₂ user scope, url₁ ≠ url₂ →
        createKey h url₁ user scope ≠ createKey h url₂ user scope) ∧
    (∀ url user₁ user₂ scope, user₁ ≠ user₂ →
        createKey h url user₁ scope ≠ createKey h url user₂ scope) := by
  refine ⟨fun _ _ _ => rfl, ?_, ?_, ?_⟩
  · intro url user s₁ s₂ hne heq
    exact hne (hinj (List.append_cancel_left (hinj heq)))
  · intro url₁ url₂ user scope hne heq
    have h1 := hinj heq
    exact hne (List.append_cancel_right (List.append_cancel_right
      (List.append_cancel_right (List.append_cancel_right h1))))
  · intro url user₁ user₂ scope hne heq
    have h1 := hinj heq
    exact hne (List.append_cancel_left
      (List.append_cancel_right (List.append_cancel_right h1)))

/-- Witness for C3, at the identity digest (which is injective) and
concrete strings: two scope strings differing syntactically give two
different cache keys. -/
theorem createKey_deterministic_and_separating_witness :
    createKey (fun s => s) "http://a".data "alice".data "m:R".data ≠
      createKey (fun s => s) "http://a".data "alice".data "m:RW".data :=
  (createKey_deterministic_and_separating (fun s => s)
      (fun _ _ hx => hx)).2.1
    "http://a".data "alice".data "m:R".data "m:RW".data (by decide)

/-- C8: permission letters are matched case-insensitively against
{R, W, D}; a character whose upper-casing is none of the three leaves the
parsed permission set unchanged (silent filtering, no error), so
"res.partner:RWX" grants exactly {R, W}, "res.partner:rwd" grants the
full set, and a segment with an empty permission string is kept as an
explicit all-false denial entry. -/
theorem permission_letter_filtering :
    (∀ s c, c.toUpper ≠ 'R' → c.toUpper ≠ 'W' → c.toUpper ≠ 'D' →
        permsOfString (c :: s) = permsOfString s) ∧
    parse_scope "res.partner:RWX".data =
      .ok [("res.partner".data, ⟨true, true, false⟩)] ∧
    parse_scope "res.partner:rwd".data =
      .ok [("res.partner".data, ⟨true, true, true⟩)] ∧
    parse_scope "res.partner:".data =
      .ok [("res.partner".data, ⟨false, false, false⟩)] := by
  refine ⟨?_, by decide, by decide, by decide⟩
  intro s c h1 h2 h3
  simp [permsOfString, h1, h2, h3]

/-- Witness for C8 at a concrete invalid letter: prepending X to the
permission string RW changes nothing. -/
theorem permission_letter_filtering_witness :
    permsOfString ('X' :: "RW".data) = permsOfString "RW".data :=
  permission_letter_filtering.1 "RW".data 'X' (by decide) (by decide)
    (by decide)

/-- C9: a repeated entity-type token keeps only the last segment's
permission set — dict assignment overwrites the earlier value — so
parsing "res.partner:RWD,res.partner:" leaves a single explicit
empty-permission denial entry for res.partner. -/
theorem duplicate_model_last_segment_wins :
    (∀ m k v, lookupPS (insertPS m k v) k = some v) ∧
    parse_scope "res.partner:RWD,res.partner:".data =
      .ok [("res.partner".data, ⟨false, false, false⟩)] :=
  ⟨lookupPS_insertPS_self, by decide⟩

/-- C1: when the policy denies (entityType, operation), execute_kw
returns the PermissionError immediately with the pool untouched, and the
result is the same for every authenticator and every RPC transport — no
broker resolution, authentication or remote call can have occurred. -/
theorem denied_call_no_network {π V : Type} (v : ScopeValidator)
    (model method : Str)
    (hden : can_call v.allowed_models model method = false) :
    ∀ (h : Str → Str) (maxAge : Nat) (mkProxy : Str → π)
      (auth : AuthOutcome) (rpc : Nat × Str × π → RpcOutcome V)
      (p : Pool π) (now : Nat) (odoo_url odoo_db username password : Str),
      execute_kw h maxAge mkProxy auth rpc v p now odoo_url odoo_db
          username password model method
        = (.error (.permission (deniedMsg model method)), p) := by
  intro h maxAge mkProxy auth rpc p now odoo_url odoo_db username password
  simp [execute_kw, enforce_call, hden]

/-- Witness for C1: a read-only grant denies unlink on res.partner; the
denied result and unchanged pool, at one concrete oracle pair. -/
theorem denied_call_no_network_witness :
    execute_kw (π := Unit) (V := Unit) (fun s => s) 60 (fun _ => ())
        (.ok (some 1)) (fun _ => .ok ())
        ⟨"res.partner:R".data, [("res.partner".data, ⟨true, false, false⟩)]⟩
        [] 0 "u".data "db".data "alice".data "pw".data
        "res.partner".data "unlink".data
      = (.error (.permission
          (deniedMsg "res.partner".data "unlink".data)), []) :=
  denied_call_no_network
    ⟨"res.partner:R".data, [("res.partner".data, ⟨true, false, false⟩)]⟩
    "res.partner".data "unlink".data (by decide) (fun s => s) 60 (fun _ => ())
    (.ok (some 1)) (fun _ => .ok ()) [] 0 "u".data "db".data "alice".data
    "pw".data

/-- C7: every outcome of execute_kw is one of the taxonomy kinds — a
permission error, a client error, or a success value — and in the RPC
phase a backend Fault maps to the client error carrying the backend's
message after the Odoo-error head, any other transport exception is
wrapped behind the RPC-failure head instead of propagating raw, and a
connection failure is re-raised as a client error with the same
message. -/
theorem execute_kw_error_taxonomy {π V : Type} (h : Str → Str)
    (maxAge : Nat) (mkProxy : Str → π) (auth : AuthOutcome)
    (rpc : Nat × Str × π → RpcOutcome V) (v : ScopeValidator) (p : Pool π)
    (now : Nat) (odoo_url odoo_db username password model method : Str) :
    ((∃ m, (execute_kw h maxAge mkProxy auth rpc v p now odoo_url odoo_db
        username password model method).1 = .error (.permission m)) ∨
     (∃ m, (execute_kw h maxAge mkProxy auth rpc v p now odoo_url odoo_db
        username password model method).1 = .error (.client m)) ∨
     (∃ val, (execute_kw h maxAge mkProxy auth rpc v p now odoo_url odoo_db
        username password model method).1 = .ok val)) ∧
    (∀ conn m, can_call v.allowed_models model method = true →
      (get_connection h maxAge mkProxy auth p now odoo_url odoo_db username
          password v.scope_string).1 = .ok conn →
      rpc conn = .fault m →
      (execute_kw h maxAge mkProxy auth rpc v p now odoo_url odoo_db
          username password model method).1
        = .error (.client (odooErrHead ++ m))) ∧
    (∀ conn m, can_call v.allowed_models model method = true →
      (get_connection h maxAge mkProxy auth p now odoo_url odoo_db username
          password v.scope_string).1 = .ok conn →
      rpc conn = .exc m →
      (execute_kw h maxAge mkProxy auth rpc v p now odoo_url odoo_db
          username password model method).1
        = .error (.client (rpcFailHead ++ m))) ∧
    (∀ e, can_call v.allowed_models model method = true →
      (get_connection h maxAge mkProxy auth p now odoo_url odoo_db username
          password v.scope_string).1 = .error e →
      (execute_kw h maxAge mkProxy auth rpc v p now odoo_url odoo_db
          username password model method).1
        = .error (.client e.msg)) := by
  refine ⟨?_, ?_, ?_, ?_⟩
  · by_cases hcan : can_call v.allowed_models model method
    · rcases hconn : (get_connection h maxAge mkProxy auth p now odoo_url
        odoo_db username password v.scope_string).1 with e | conn
      · refine Or.inr (Or.inl ⟨e.msg, ?_⟩)
        simp [execute_kw, enforce_call, hcan, hconn]
      · rcases hrpc : rpc conn with m | m | val
        · refine Or.inr (Or.inl ⟨odooErrHead ++ m, ?_⟩)
          simp [execute_kw, enforce_call, hcan, hconn, hrpc]
        · refine Or.inr (Or.inl ⟨rpcFailHead ++ m, ?_⟩)
          simp [execute_kw, enforce_call, hcan, hconn, hrpc]
        · refine Or.inr (Or.inr ⟨val, ?_⟩)
          simp [execute_kw, enforce_call, hcan, hconn, hrpc]
    · refine Or.inl ⟨deniedMsg model method, ?_⟩
      simp [execute_kw, enforce_call, hcan]
  · intro conn m hcan hconn hrpc
    simp [execute_kw, enforce_call, hcan, hconn, hrpc]
  · intro conn m hcan hconn hrpc
    simp [execute_kw, enforce_call, hcan, hconn, hrpc]
  · intro e hcan hconn
    simp [execute_kw, enforce_call, hcan, hconn]

/-- Witness for C7: with an empty pool, a successful authentication and
an RPC transport that raises a backend Fault, the call returns the
client error carrying the backend message. -/
theorem execute_kw_error_taxonomy_witness :
    (execute_kw (π := Unit) (V := Unit) (fun s => s) 60 (fun _ => ())
        (.ok (some 5)) (fun _ => .fault "bad args".data)
        ⟨"res.partner:R".data, [("res.partner".data, ⟨true, false, false⟩)]⟩
        [] 0 "u".data "db".data "alice".data "pw".data
        "res.partner".data "search".data).1
      = .error (.client (odooErrHead ++ "bad args".data)) :=
  (execute_kw_error_taxonomy (fun s => s) 60 (fun _ => ())
      (.ok (some 5)) (fun _ => .fault "bad args".data)
      ⟨"res.partner:R".data, [("res.partner".data, ⟨true, false, false⟩)]⟩
      [] 0 "u".data "db".data "alice".data "pw".data
      "res.partner".data "search".data).2.1
    (5, "db".data, ()) "bad args".data (by decide) (by decide) rfl

lemma lookupConn_eraseConn_self {π : Type} (p : Pool π) (k : Str) :
    lookupConn (eraseConn p k) k = none := by
  induction p with
  | nil => rfl
  | cons e rest ih =>
    obtain ⟨k0, c⟩ := e
    by_cases hk : k0 = k
    · simp [eraseConn, hk, ih]
    · simp [eraseConn, hk, lookupConn, ih]

lemma lookupConn_eraseConn_ne {π : Type} (p : Pool π) (k k' : Str)
    (hne : k' ≠ k) : lookupConn (eraseConn p k) k' = lookupConn p k' := by
  induction p with
  | nil => rfl
  | cons e rest ih =>
    obtain ⟨k0, c⟩ := e
    by_cases hk : k0 = k
    · subst hk
      simp [eraseConn, lookupConn, Ne.symm hne, ih]
    · by_cases hk2 : k0 = k'
      · simp [eraseConn, hk, lookupConn, hk2, hne]
      · simp [eraseConn, hk, lookupConn, hk2, ih]

lemma lookupConn_insertConn_self {π : Type} (p : Pool π) (k : Str)
    (c : Conn π) : lookupConn (insertConn p k c) k = some c := by
  induction p with
  | nil => simp [insertConn, lookupConn]
  | cons e rest ih =>
    obtain ⟨k0, c0⟩ := e
    by_cases hk : k0 = k
    · simp [insertConn, hk, lookupConn]
    · simp [insertConn, hk, lookupConn, ih]

lemma eraseConn_not_mem {π : Type} (p : Pool π) (k : Str)
    (hk : k ∉ p.map Prod.fst) : eraseConn p k = p := by
  induction p with
  | nil => rfl
  | cons e rest ih =>
    simp only [List.map_cons, List.mem_cons] at hk
    push_neg at hk
    obtain ⟨hk1, hk2⟩ := hk
    obtain ⟨k0, c⟩ := e
    simp only at hk1
    simp [eraseConn, Ne.symm hk1, ih hk2]

lemma length_eraseConn {π : Type} (p : Pool π) (k : Str) (c : Conn π)
    (hnd : (p.map Prod.fst).Nodup) (hc : lookupConn p k = some c) :
    (eraseConn p k).length + 1 = p.length := by
  induction p with
  | nil => simp [lookupConn] at hc
  | cons e rest ih =>
    obtain ⟨k0, c0⟩ := e
    simp only [List.map_cons, List.nodup_cons] at hnd
    obtain ⟨hk0, hnd'⟩ := hnd
    by_cases hk : k0 = k
    · subst hk
      simp [eraseConn, eraseConn_not_mem rest k0 hk0]
    · have hc' : lookupConn rest k = some c := by
        simpa [lookupConn, hk] using hc
      have := ih hnd' hc'
      simp only [eraseConn, if_neg hk, List.length_cons]
      omega

lemma expiredCount_eraseConn {π : Type} (p : Pool π) (k : Str) (c : Conn π)
    (now : Nat) (hnd : (p.map Prod.fst).Nodup)
    (hc : lookupConn p k = some c) :
    expiredCount (eraseConn p k) now
      + (if c.expires_at < now then 1 else 0) = expiredCount p now := by
  induction p with
  | nil => simp [lookupConn] at hc
  | cons e rest ih =>
    obtain ⟨k0, c0⟩ := e
    simp only [List.map_cons, List.nodup_cons] at hnd
    obtain ⟨hk0, hnd'⟩ := hnd
    by_cases hk : k0 = k
    · subst hk
      have hcc : c0 = c := by simpa [lookupConn] using hc
      subst hcc
      simp [eraseConn, eraseConn_not_mem rest k0 hk0, expiredCount]
      omega
    · have hc' : lookupConn rest k = some c := by
        simpa [lookupConn, hk] using hc
      have := ih hnd' hc'
      simp only [eraseConn, if_neg hk, expiredCount]
      omega

/-- C4: for a stored session under the derived key, get returns it with
the pool unchanged while now is at most the expiry; once now is past the
expiry, get deletes the entry and reports not-found, after which the key
no longer resolves and the entry is gone from size() and from both the
total and the expired counts of stats(). -/
theorem session_cache_ttl {π : Type} (h : Str → Str) (maxAge : Nat)
    (p : Pool π) (now : Nat) (odoo_url username scope : Str) (c : Conn π)
    (key : Str) (hkey : key = createKey h odoo_url username scope)
    (hnd : (p.map Prod.fst).Nodup)
    (hc : lookupConn p key = some c) :
    (now ≤ c.expires_at →
      pool_get h p now odoo_url username scope = (some c, p)) ∧
    (c.expires_at < now →
      pool_get h p now odoo_url username scope = (none, eraseConn p key) ∧
      lookupConn (eraseConn p key) key = none ∧
      pool_size (eraseConn p key) + 1 = pool_size p ∧
      (pool_stats maxAge (eraseConn p key) now).total_connections + 1
        = (pool_stats maxAge p now).total_connections ∧
      (pool_stats maxAge (eraseConn p key) now).expired_connections + 1
        = (pool_stats maxAge p now).expired_connections) := by
  subst hkey
  constructor
  · intro hle
    simp [pool_get, hc, Nat.not_lt.mpr hle]
  · intro hlt
    refine ⟨by simp [pool_get, hc, hlt], lookupConn_eraseConn_self p _,
      ?_, ?_, ?_⟩
    · simpa [pool_size] using length_eraseConn p _ c hnd hc
    · simpa [pool_stats] using length_eraseConn p _ c hnd hc
    · have := expiredCount_eraseConn p _ c now hnd hc
      simp only [pool_stats]
      simpa [hlt] using this

/-- Witness for C4: a session stored with expiry 5 accessed at time 10 is
removed and reported not-found, and leaves the counts. -/
theorem session_cache_ttl_witness :
    pool_get (π := Unit) (fun s => s)
        [(createKey (fun s => s) "u".data "alice".data "m:R".data,
          ⟨7, "db".data, (), "m:R".data, 0, 5⟩)] 10
        "u".data "alice".data "m:R".data
      = (none, eraseConn
          [(createKey (fun s => s) "u".data "alice".data "m:R".data,
            ⟨7, "db".data, (), "m:R".data, 0, 5⟩)]
          (createKey (fun s => s) "u".data "alice".data "m:R".data)) :=
  ((session_cache_ttl (fun s => s) 60
      [(createKey (fun s => s) "u".data "alice".data "m:R".data,
        ⟨7, "db".data, (), "m:R".data, 0, 5⟩)] 10
      "u".data "alice".data "m:R".data
      ⟨7, "db".data, (), "m:R".data, 0, 5⟩ _ rfl (by decide)
      (by decide)).2 (by decide)).1

lemma authFail_ne_fault_msg (m : Str) :
    connFailHead ++ authFailedMsg ≠ odooAuthErrHead ++ m := by
  intro hx
  have h1 : (connFailHead ++ authFailedMsg).head? = some 'F' := by decide
  have h2 : odooAuthErrHead
      = 'O' :: "doo error during authentication: ".data := by decide
  rw [hx, h2] at h1
  simp only [List.cons_append, List.head?_cons] at h1
  exact absurd h1 (by decide)

/-- C5: on a cache hit the broker returns the cached (uid, db, proxy)
triple with the pool unchanged, identically for every authenticator (no
network activity); on a miss the authenticator decides the outcome — a
falsy uid yields the authentication-failure error, whose message differs
from every Fault-derived transport message, a Fault yields the transport
error, and a truthy uid returns the fresh triple and stores the session
under the scope-qualified key. -/
theorem broker_resolve_behaviour {π : Type} (h : Str → Str) (maxAge : Nat)
    (mkProxy : Str → π) (p : Pool π) (now : Nat)
    (odoo_url odoo_db username password scope : Str) :
    (∀ c, lookupConn p (createKey h odoo_url username scope) = some c →
      now ≤ c.expires_at →
      ∀ auth, get_connection h maxAge mkProxy auth p now odoo_url odoo_db
          username password scope
        = (.ok (c.uid, c.db, c.models_proxy), p)) ∧
    (∀ uid, (pool_get h p now odoo_url username scope).1 = none →
      uidFalsy uid = true →
      (get_connection h maxAge mkProxy (.ok uid) p now odoo_url odoo_db
          username password scope).1
        = .error ⟨connFailHead ++ authFailedMsg⟩) ∧
    (∀ m, connFailHead ++ authFailedMsg ≠ odooAuthErrHead ++ m) ∧
    (∀ m, (pool_get h p now odoo_url username scope).1 = none →
      (get_connection h maxAge mkProxy (.fault m) p now odoo_url odoo_db
          username password scope).1 = .error ⟨odooAuthErrHead ++ m⟩) ∧
    (∀ u, (pool_get h p now odoo_url username scope).1 = none → u ≠ 0 →
      get_connection h maxAge mkProxy (.ok (some u)) p now odoo_url odoo_db
          username password scope
        = (.ok (u, odoo_db, mkProxy (odoo_url ++ objectEndpoint)),
           pool_set h maxAge (pool_get h p now odoo_url username scope).2
             now odoo_url username scope u odoo_db
             (mkProxy (odoo_url ++ objectEndpoint))) ∧
      lookupConn (get_connection h maxAge mkProxy (.ok (some u)) p now
          odoo_url odoo_db username password scope).2
          (createKey h odoo_url username scope)
        = some { uid := u, db := odoo_db,
                 models_proxy := mkProxy (odoo_url ++ objectEndpoint),
                 scope := scope, created_at := now,
                 expires_at := now + maxAge }) := by
  refine ⟨?_, ?_, authFail_ne_fault_msg, ?_, ?_⟩
  · intro c hcSome hle auth
    have hpg : pool_get h p now odoo_url username scope = (some c, p) := by
      simp [pool_get, hcSome, Nat.not_lt.mpr hle]
    simp [get_connection, hpg]
  · intro uid hmiss hfalsy
    simp [get_connection, hmiss, hfalsy]
  · intro m hmiss
    simp [get_connection, hmiss]
  · intro u hmiss hu
    have hfl : uidFalsy (some u) = false := by
      simpa [uidFalsy] using hu
    constructor
    · simp [get_connection, hmiss, hfl]
    · simp [get_connection, hmiss, hfl, pool_set,
        lookupConn_insertConn_self]

/-- Witness for C5: a valid cached entry is returned unchanged even when
the authenticator would report the network down. -/
theorem broker_resolve_behaviour_witness :
    get_connection (π := Unit) (fun s => s) 60 (fun _ => ())
        (.fault "net down".data)
        [(createKey (fun s => s) "u".data "alice".data "m:R".data,
          ⟨7, "db".data, (), "m:R".data, 0, 100⟩)] 50
        "u".data "db".data "alice".data "pw".data "m:R".data
      = (.ok (7, "db".data, ()),
         [(createKey (fun s => s) "u".data "alice".data "m:R".data,
           ⟨7, "db".data, (), "m:R".data, 0, 100⟩)]) :=
  (broker_resolve_behaviour (fun s => s) 60 (fun _ => ())
      [(createKey (fun s => s) "u".data "alice".data "m:R".data,
        ⟨7, "db".data, (), "m:R".data, 0, 100⟩)] 50
      "u".data "db".data "alice".data "pw".data "m:R".data).1
    ⟨7, "db".data, (), "m:R".data, 0, 100⟩ (by decide) (by decide)
    (.fault "net down".data)

/-- C10 counterexample: with one expired entry in the pool, a resolution
that then fails with a transport error still removes that entry — the
failed call does not leave the cache unchanged, contradicting the claim
that no existing entry is ever removed on failure. -/
theorem failed_resolution_mutates_cache :
    isErrE (get_connection (π := Unit) (fun s => s) 60 (fun _ => ())
        (.exc "network unreachable".data)
        [(createKey (fun s => s) "u".data "alice".data "m:R".data,
          ⟨7, "db".data, (), "m:R".data, 0, 5⟩)] 10
        "u".data "db".data "alice".data "pw".data "m:R".data).1 = true ∧
    (get_connection (π := Unit) (fun s => s) 60 (fun _ => ())
        (.exc "network unreachable".data)
        [(createKey (fun s => s) "u".data "alice".data "m:R".data,
          ⟨7, "db".data, (), "m:R".data, 0, 5⟩)] 10
        "u".data "db".data "alice".data "pw".data "m:R".data).2 = [] ∧
    ([(createKey (fun s => s) "u".data "alice".data "m:R".data,
        (⟨7, "db".data, (), "m:R".data, 0, 5⟩ : Conn Unit))] : Pool Unit)
      ≠ [] := by
  refine ⟨by decide, by decide, by decide⟩

lemma pool_get_miss_state {π : Type} (h : Str → Str) (p : Pool π)
    (now : Nat) (odoo_url username scope : Str)
    (hmiss : (pool_get h p now odoo_url username scope).1 = none) :
    lookupConn (pool_get h p now odoo_url username scope).2
        (createKey h odoo_url username scope) = none ∧
    ∀ k, k ≠ createKey h odoo_url username scope →
      lookupConn (pool_get h p now odoo_url username scope).2 k
        = lookupConn p k := by
  rcases hl : lookupConn p (createKey h odoo_url username scope) with _ | c
  · exact ⟨by simp [pool_get, hl], fun k hk => by simp [pool_get, hl]⟩
  · by_cases hexp : c.expires_at < now
    · refine ⟨by simp [pool_get, hl, hexp, lookupConn_eraseConn_self],
        fun k hk => ?_⟩
      simp [pool_get, hl, hexp, lookupConn_eraseConn_ne p _ k hk]
    · exfalso
      simp [pool_get, hl, hexp] at hmiss

/-- C10 amended: when resolution fails, no entry is inserted — the final
pool is exactly the state after the initial cache lookup, so the
requested key resolves to nothing and every other key is untouched; the
lookup itself may however have lazily removed an expired entry under the
requested key, and an entry is stored only on the success path. -/
theorem failure_inserts_nothing {π : Type} (h : Str → Str) (maxAge : Nat)
    (mkProxy : Str → π) (auth : AuthOutcome) (p : Pool π) (now : Nat)
    (odoo_url odoo_db username password scope : Str)
    (hfail : isErrE (get_connection h maxAge mkProxy auth p now odoo_url
        odoo_db username password scope).1 = true) :
    (get_connection h maxAge mkProxy auth p now odoo_url odoo_db username
        password scope).2 = (pool_get h p now odoo_url username scope).2 ∧
    lookupConn (get_connection h maxAge mkProxy auth p now odoo_url
        odoo_db username password scope).2
        (createKey h odoo_url username scope) = none ∧
    (∀ k, k ≠ createKey h odoo_url username scope →
      lookupConn (get_connection h maxAge mkProxy auth p now odoo_url
          odoo_db username password scope).2 k = lookupConn p k) := by
  rcases hpg : (pool_get h p now odoo_url username scope).1 with _ | c
  · have hstate := pool_get_miss_state h p now odoo_url username scope hpg
    rcases auth with m | m | uid
    · exact ⟨by simp [get_connection, hpg], by
        simpa [get_connection, hpg] using hstate.1, fun k hk => by
        simpa [get_connection, hpg] using hstate.2 k hk⟩
    · exact ⟨by simp [get_connection, hpg], by
        simpa [get_connection, hpg] using hstate.1, fun k hk => by
        simpa [get_connection, hpg] using hstate.2 k hk⟩
    · rcases hfl : uidFalsy uid with _ | _
      · exfalso
        simp [get_connection, hpg, hfl, isErrE] at hfail
      · exact ⟨by simp [get_connection, hpg, hfl], by
          simpa [get_connection, hpg, hfl] using hstate.1, fun k hk => by
          simpa [get_connection, hpg, hfl] using hstate.2 k hk⟩
  · exfalso
    simp [get_connection, hpg, isErrE] at hfail

/-- Witness for C10's amended theorem: a failed authentication against an
empty pool inserts nothing. -/
theorem failure_inserts_nothing_witness :
    (get_connection (π := Unit) (fun s => s) 60 (fun _ => ())
        (.exc "boom".data) [] 0 "u".data "db".data "alice".data "pw".data
        "m:R".data).2 = (pool_get (π := Unit) (fun s => s) [] 0 "u".data
        "alice".data "m:R".data).2 :=
  (failure_inserts_nothing (fun s => s) 60 (fun _ => ()) (.exc "boom".data)
    [] 0 "u".data "db".data "alice".data "pw".data "m:R".data
    (by decide)).1

lemma splitOnChar_ne_nil (sep : Char) (s : Str) : splitOnChar sep s ≠ [] := by
  cases s with
  | nil => simp [splitOnChar]
  | cons c cs =>
    by_cases hc : c = sep
    · simp [splitOnChar, hc]
    · rcases hsp : splitOnChar sep cs with _ | ⟨chunk, rest⟩ <;>
        simp [splitOnChar, hc, hsp]

lemma mem_of_mem_splitOnChar (sep : Char) (s seg : Str) (c : Char)
    (hseg : seg ∈ splitOnChar sep s) (hc : c ∈ seg) : c ∈ s := by
  induction s generalizing seg with
  | nil =>
    simp [splitOnChar] at hseg
    subst hseg
    simp at hc
  | cons x xs ih =>
    by_cases hx : x = sep
    · simp only [splitOnChar, if_pos hx] at hseg
      rcases List.mem_cons.1 hseg with h | h
      · subst h; simp at hc
      · exact List.mem_cons_of_mem x (ih seg h hc)
    · rcases hsp : splitOnChar sep xs with _ | ⟨chunk, rest⟩
      · exact absurd hsp (splitOnChar_ne_nil sep xs)
      · simp only [splitOnChar, if_neg hx, hsp] at hseg
        rcases List.mem_cons.1 hseg with h | h
        · subst h
          rcases List.mem_cons.1 hc with h2 | h2
          · rw [h2]; exact List.mem_cons_self x xs
          · have hchunk : chunk ∈ splitOnChar sep xs := by
              rw [hsp]; exact List.mem_cons_self _ _
            exact List.mem_cons_of_mem x (ih chunk hchunk h2)
        · have hrest : seg ∈ splitOnChar sep xs := by
            rw [hsp]; exact List.mem_cons_of_mem _ h
          exact List.mem_cons_of_mem x (ih seg hrest hc)

lemma trim_eq_nil_iff (s : Str) :
    trim s = [] ↔ ∀ c ∈ s, c.isWhitespace = true := by
  unfold trim
  rw [List.reverse_eq_nil_iff, List.dropWhile_eq_nil_iff]
  constructor
  · intro hall c hc
    rw [← List.takeWhile_append_dropWhile Char.isWhitespace s] at hc
    rcases List.mem_append.1 hc with h | h
    · exact List.mem_takeWhile_imp h
    · exact hall c (List.mem_reverse.2 h)
  · intro hall c hc
    exact hall c
      ((List.dropWhile_sublist Char.isWhitespace).mem (List.mem_reverse.1 hc))

lemma validSegmentB_eq_false_of_ws (seg : Str)
    (hws : ∀ c ∈ seg, c.isWhitespace = true) :
    validSegmentB seg = false := by
  have h0 : trim seg = [] := (trim_eq_nil_iff seg).2 hws
  simp [validSegmentB, h0]

lemma parsePair_eq (m : ScopeMap) (seg : Str) :
    parsePair m seg
      = if validSegmentB seg
        then insertPS m (trim (beforeColon (trim seg)))
               (permsOfString (trim (afterColon (trim seg))))
        else m := by
  unfold parsePair validSegmentB
  by_cases h1 : trim seg = []
  · simp [h1]
  · by_cases h2 : ':' ∈ trim seg
    · by_cases h3 : trim (beforeColon (trim seg)) = []
      · simp [h1, h2, h3]
      · simp [h1, h2, h3]
    · simp [h1, h2]

lemma insertPS_ne_nil (m : ScopeMap) (k : Str) (v : PermSet) :
    insertPS m k v ≠ [] := by
  cases m with
  | nil => simp [insertPS]
  | cons e rest =>
    obtain ⟨k0, v0⟩ := e
    by_cases hk : k0 = k <;> simp [insertPS, hk]

lemma foldl_parsePair_eq_nil_iff (segs : List Str) (m : ScopeMap) :
    segs.foldl parsePair m = [] ↔
      m = [] ∧ ∀ seg ∈ segs, validSegmentB seg = false := by
  induction segs generalizing m with
  | nil => simp
  | cons seg rest ih =>
    rw [List.foldl_cons, ih]
    constructor
    · rintro ⟨hps, hall⟩
      rw [parsePair_eq] at hps
      by_cases hv : validSegmentB seg
      · rw [if_pos hv] at hps
        exact absurd hps (insertPS_ne_nil _ _ _)
      · rw [if_neg hv] at hps
        refine ⟨hps, ?_⟩
        intro t ht
        rcases List.mem_cons.1 ht with h | h
        · subst h; simpa using hv
        · exact hall t h
    · rintro ⟨hm, hall⟩
      have hv : validSegmentB seg = false :=
        hall seg (List.mem_cons_self _ _)
      refine ⟨?_, fun t ht => hall t (List.mem_cons_of_mem _ ht)⟩
      rw [parsePair_eq, hv]
      simpa using hm

/-- C6: parsing fails exactly when, after processing every
comma-separated segment, zero grant entries remain; equivalently it
succeeds exactly when at least one segment is well formed (nonempty
after trimming, containing a colon, with a nonempty entity-type token) —
so empty, all-whitespace and entirely malformed scope strings fail, and
a single valid entity:permissions pair guarantees success. -/
theorem parse_scope_failure_iff (s : Str) :
    ((∃ e, parse_scope s = .error e) ↔
      (splitOnChar ',' s).foldl parsePair [] = []) ∧
    ((∃ mp, parse_scope s = .ok mp) ↔
      ∃ seg ∈ splitOnChar ',' s, validSegmentB seg = true) := by
  have hiff := foldl_parsePair_eq_nil_iff (splitOnChar ',' s) []
  simp only [eq_self_iff_true, true_and] at hiff
  by_cases h1 : trim s = []
  · have hws := (trim_eq_nil_iff s).1 h1
    have hall : ∀ seg ∈ splitOnChar ',' s, validSegmentB seg = false := by
      intro seg hseg
      exact validSegmentB_eq_false_of_ws seg
        (fun c hc => hws c (mem_of_mem_splitOnChar ',' s seg c hseg hc))
    have hfold : (splitOnChar ',' s).foldl parsePair [] = [] :=
      hiff.2 hall
    constructor
    · simp [parse_scope, h1, hfold]
    · simp only [parse_scope, if_pos h1]
      constructor
      · rintro ⟨mp, hmp⟩
        exact absurd hmp (by simp)
      · rintro ⟨seg, hseg, hv⟩
        exact absurd hv (by simp [hall seg hseg])
  · by_cases h2 : (splitOnChar ',' s).foldl parsePair [] = []
    · constructor
      · simp [parse_scope, h1, h2]
      · simp only [parse_scope, if_neg h1]
        constructor
        · rintro ⟨mp, hmp⟩
          rw [if_pos h2] at hmp
          exact absurd hmp (by simp)
        · rintro ⟨seg, hseg, hv⟩
          exact absurd hv (by simp [hiff.1 h2 seg hseg])
    · constructor
      · simp only [parse_scope, if_neg h1]
        rw [if_neg h2]
        constructor
        · rintro ⟨e, he⟩
          exact absurd he (by simp)
        · intro hfold
          exact absurd hfold h2
      · constructor
        · intro _
          by_contra hno
          push_neg at hno
          exact h2 (hiff.2 (fun seg hseg => by simpa using hno seg hseg))
        · intro _
          refine ⟨(splitOnChar ',' s).foldl parsePair [], ?_⟩
          simp [parse_scope, h1, h2]

/-- Witness for C6 at the iff level is not needed (the statement has no
hypotheses), but the two canonical failure inputs and a success input
are checked concretely elsewhere; this lemma records them. -/
lemma parse_scope_concrete_checks :
    isErrE (parse_scope "".data) = true ∧
    isErrE (parse_scope "   ".data) = true ∧
    isErrE (parse_scope "nocolon, :RW , ,".data) = true ∧
    isErrE (parse_scope "a:R".data) = false := by
  refine ⟨by decide, by decide, by decide, by decide⟩

end OdooMcp
